import Mathlib

/-!
# Verification of the treenq webhook/OAuth orchestration core

Shallow embedding of the repository's `domain` package:
* the GitHub webhook data model and `ReposToProcess` (event classification),
* the `GithubWebhook` handler (installation linking + per-repository
  deployment pipeline), modelled as a trace-producing interpreter over
  oracles for the external collaborators (git client, extractor, image
  builder, persistence, cluster applier),
* the OAuth callback handler `GithubCallbackHandler` and the identity
  linking handler `HandleLoginSuccess`.

Go's `defer` statements are modelled by an explicit stack of deferred
release events that is flushed, last-in-first-out, when the handler
returns.  Machine integers are modelled as `Nat` (no arithmetic is
performed on them anywhere in the embedded code).
-/

namespace Treenq

/-- `Sender` from the webhook payload (`sender.login`). -/
structure Sender where
  Login : String
  deriving DecidableEq, Repr

/-- `InstallationAccount` from the webhook payload.  `AccountType` models the
Go field `Type` (a Lean keyword). -/
structure InstallationAccount where
  ID : Nat
  AccountType : String
  Login : String
  deriving DecidableEq, Repr

/-- `Installation` from the webhook payload. -/
structure Installation where
  ID : Nat
  Account : InstallationAccount
  deriving DecidableEq, Repr

/-- `Repository`: the single repository descriptor embedded in push events. -/
structure Repository where
  ID : Nat
  CloneUrl : String
  FullName : String
  Private : Bool
  deriving DecidableEq, Repr

/-- `InstalledRepository`: repositories listed in installation events.
`Branch` is managed by treenq and defaults to the empty string. -/
structure InstalledRepository where
  ID : Nat
  FullName : String
  Private : Bool
  Branch : String := ""
  deriving DecidableEq, Repr

/-- `InstalledRepository.CloneUrl`: derives the clone URL from the full name,
as `fmt.Sprintf("https://github.com/%s.git", r.FullName)` does. -/
def InstalledRepository.CloneUrl (r : InstalledRepository) : String :=
  "https://github.com/" ++ r.FullName ++ ".git"

/-- `GithubWebhookRequest`: the normalized webhook payload. -/
structure GithubWebhookRequest where
  After : String
  Installation : Installation
  Sender : Sender
  Action : String
  Repositories : List InstalledRepository
  RepositoriesAdded : List InstalledRepository
  RepositoriesRemoved : List InstalledRepository
  Ref : String
  Repository : Repository
  deriving DecidableEq, Repr

/-- `GithubWebhookRequest.ReposToProcess`: classifies the event and derives
the repositories to act on, exactly as the Go method does (Go's `nil` slice
is modelled by `[]`). -/
def GithubWebhookRequest.ReposToProcess (g : GithubWebhookRequest) :
    List InstalledRepository :=
  if g.Action = "created" then
    g.Repositories
  else if g.Action = "added" then
    g.RepositoriesAdded
  else if g.Action = "" then
    if g.Ref ≠ "refs/heads/master" ∧ g.Ref ≠ "refs/heads/main" then
      []
    else
      [{ ID := g.Repository.ID
         FullName := g.Repository.FullName
         Private := g.Repository.Private }]
  else
    []

/-- Modelled from the spec: `tqsdk.Space` (the extracted application
specification) lives outside the provided sources; the spec describes it as
carrying the service name and the Dockerfile path relative to the clone
root, plus further deploy-relevant metadata opaque to the handler. -/
structure Service where
  Name : String
  DockerfilePath : String
  deriving DecidableEq, Repr

/-- Modelled from the spec: the `Space` wrapper around the service data of
the extracted application specification (see `Service`). -/
structure Space where
  Service : Service
  deriving DecidableEq, Repr

/-- `BuildArtifactRequest`: the ephemeral build request. -/
structure BuildArtifactRequest where
  Name : String
  Path : String
  Dockerfile : String
  Tag : String
  deriving DecidableEq, Repr

/-- `Image`: the built image reference. -/
structure Image where
  Registry : String
  Repository : String
  Tag : String
  deriving DecidableEq, Repr

/-- `Image.Image`: the short reference `Repository:Tag`. -/
def Image.Image (i : Image) : String :=
  i.Repository ++ ":" ++ i.Tag

/-- `Image.FullPath`: the fully qualified reference `Registry/Repository:Tag`. -/
def Image.FullPath (i : Treenq.Image) : String :=
  i.Registry ++ "/" ++ i.Repository ++ ":" ++ i.Tag

/-- `AppDefinition`: the persisted deployment record.  `CreatedAt` is
modelled as a numeric timestamp (the handler never inspects it and leaves
it at the zero value). -/
structure AppDefinition where
  ID : String
  AppID : String
  App : Space
  Tag : String
  Sha : String
  User : String
  CreatedAt : Nat := 0
  deriving DecidableEq, Repr

/-- Modelled from the spec: `vel.Error` lives outside the provided sources;
the spec describes every surfaced failure as a machine-readable code plus a
human-readable message. -/
structure VelError where
  Code : String
  Message : String
  deriving DecidableEq, Repr

/-- `joinPath a b` models `filepath.Join(a, b)` on already-clean inputs. -/
def joinPath (a b : String) : String :=
  if a = "" then b else if b = "" then a else a ++ "/" ++ b

/-- Observable events of one `GithubWebhook` run: every call to an external
collaborator, plus `cloneOk`/`openOk` marking a successful resource
acquisition and `removeDir`/`extractorClose` marking its release. -/
inductive Event where
  | linkGithub (installationID : Nat) (login : String)
      (repos : List InstalledRepository)
  | issueToken (installationID : Nat)
  | clone (url : String) (installationID repoID : Nat) (token : String)
  | cloneOk (dir : String)
  | removeDir (dir : String)
  | extractorOpen
  | openOk (id : Nat)
  | extractorClose (id : Nat)
  | extractConfig (id : Nat) (dir : String)
  | build (req : BuildArtifactRequest)
  | saveDeployment (d : AppDefinition)
  | defineApp (id : String) (app : Space) (image : Image)
  | kubeApply
  deriving DecidableEq, Repr

/-- Result oracles for the external collaborators of `GithubWebhook`
(spec §6), indexed by the repository iteration number.  The handler's
control flow is independent of how these results are produced. -/
structure Env where
  linkErr : Option String
  issueToken : Nat → Except String String
  clone : Nat → Except String String
  openEx : Nat → Except String Nat
  extract : Nat → Except String Space
  build : Nat → Except String Image
  save : Nat → Except String AppDefinition
  kubeApply : Nat → Option String

/-- Wraps a collaborator error message exactly as the handler does:
`&vel.Error{Code: "UNKNOWN", Message: err.Error()}`. -/
def unknownErr (msg : String) : VelError :=
  { Code := "UNKNOWN", Message := msg }

/-- The pipeline body for one repository after the token step: the part of
the `GithubWebhook` loop body from `h.git.Clone` onwards.  Returns the
events emitted in order, the deferred release events in flush
(last-in-first-out) order, and the error, if any, of this iteration.
`pre` holds the events already emitted by the token step. -/
def runIterCore (env : Env) (req : GithubWebhookRequest) (i : Nat)
    (repo : InstalledRepository) (pre : List Event) (token : String) :
    List Event × List Event × Option VelError :=
  let evs := pre ++ [.clone repo.CloneUrl req.Installation.ID repo.ID token]
  match env.clone i with
  | .error e => (evs, [], some (unknownErr e))
  | .ok repoDir =>
    let evs := evs ++ [.cloneOk repoDir, .extractorOpen]
    match env.openEx i with
    | .error e => (evs, [.removeDir repoDir], some (unknownErr e))
    | .ok exId =>
      let evs := evs ++ [.openOk exId, .extractConfig exId repoDir]
      match env.extract i with
      | .error e =>
        (evs, [.extractorClose exId, .removeDir repoDir], some (unknownErr e))
      | .ok appSpace =>
        let evs := evs ++ [.build
          { Name := appSpace.Service.Name
            Path := repoDir
            Dockerfile := joinPath repoDir appSpace.Service.DockerfilePath
            Tag := "latest" }]
        match env.build i with
        | .error e =>
          (evs, [.extractorClose exId, .removeDir repoDir],
            some (unknownErr e))
        | .ok image =>
          let evs := evs ++ [.saveDeployment
            { ID := ""
              AppID := ""
              App := appSpace
              Tag := image.Tag
              Sha := req.After
              User := req.Sender.Login }]
          match env.save i with
          | .error e =>
            (evs, [.extractorClose exId, .removeDir repoDir],
              some (unknownErr e))
          | .ok appDef =>
            let evs := evs ++ [.defineApp appDef.ID appSpace image,
              .kubeApply]
            match env.kubeApply i with
            | some e =>
              (evs, [.extractorClose exId, .removeDir repoDir],
                some (unknownErr e))
            | none =>
              (evs, [.extractorClose exId, .removeDir repoDir], none)

/-- One iteration of the `GithubWebhook` loop: the token step (`token := "";
if repo.Private { token, err = IssueAccessToken(...) }`) followed by
`runIterCore`. -/
def runIter (env : Env) (req : GithubWebhookRequest) (i : Nat)
    (repo : InstalledRepository) :
    List Event × List Event × Option VelError :=
  if repo.Private then
    match env.issueToken i with
    | .error e =>
      ([.issueToken req.Installation.ID], [], some (unknownErr e))
    | .ok token =>
      runIterCore env req i repo [.issueToken req.Installation.ID] token
  else
    runIterCore env req i repo [] ""

/-- The `for _, repo := range req.ReposToProcess()` loop.  `stack` is the
accumulated stack of deferred release events (head = most recently pushed);
a step failure returns from the whole handler, which first flushes the
stack; the normal exit after the last repository flushes it too. -/
def runLoop (env : Env) (req : GithubWebhookRequest) :
    Nat → List InstalledRepository → List Event →
    List Event × Option VelError
  | _, [], stack => (stack, none)
  | i, repo :: rest, stack =>
    match runIter env req i repo with
    | (tr, df, some e) => (tr ++ (df ++ stack), some e)
    | (tr, df, none) =>
      match runLoop env req (i + 1) rest (df ++ stack) with
      | (tr2, res) => (tr ++ tr2, res)

/-- The `GithubWebhook` handler: on action `"created"` first persist the
installation link (aborting everything if that write fails), then run the
pipeline for each resolved repository. -/
def GithubWebhook (env : Env) (req : GithubWebhookRequest) :
    List Event × Option VelError :=
  if req.Action = "created" then
    match env.linkErr with
    | some e =>
      ([.linkGithub req.Installation.ID req.Sender.Login req.Repositories],
        some (unknownErr e))
    | none =>
      match runLoop env req 0 req.ReposToProcess [] with
      | (tr, res) =>
        (.linkGithub req.Installation.ID req.Sender.Login req.Repositories
          :: tr, res)
  else
    runLoop env req 0 req.ReposToProcess []

/-- The directories released by `os.RemoveAll` events, in trace order. -/
def removedOf : List Event → List String
  | [] => []
  | .removeDir d :: tr => d :: removedOf tr
  | _ :: tr => removedOf tr

/-- The directories successfully acquired by `Clone`, in trace order. -/
def clonedOf : List Event → List String
  | [] => []
  | .cloneOk d :: tr => d :: clonedOf tr
  | _ :: tr => clonedOf tr

/-- The extractor sessions released by `Close` events, in trace order. -/
def closedOf : List Event → List Nat
  | [] => []
  | .extractorClose n :: tr => n :: closedOf tr
  | _ :: tr => closedOf tr

/-- The extractor sessions successfully acquired by `Open`, in trace order. -/
def openedOf : List Event → List Nat
  | [] => []
  | .openOk n :: tr => n :: openedOf tr
  | _ :: tr => openedOf tr

/-- The `AppDefinition` values handed to `SaveDeployment`, in trace order. -/
def savesOf : List Event → List AppDefinition
  | [] => []
  | .saveDeployment d :: tr => d :: savesOf tr
  | _ :: tr => savesOf tr

/-- Recognizes the installation-link write event. -/
def isLink : Event → Bool
  | .linkGithub .. => true
  | _ => false

/-- The `TokenPair` returned by the code exchange; `ExpiresIn` is modelled
as a numeric timestamp. -/
structure TokenPair where
  AccessToken : String
  RefreshToken : String
  ExpiresIn : Nat
  deriving DecidableEq, Repr

/-- Observable actions of one `GithubCallbackHandler` run. -/
inductive CbEvent where
  | stateLookup (state : String)
  | exchange (code : String)
  | saveToken (email accessToken : String)
  deriving DecidableEq, Repr

/-- Result oracles for the callback handler's external collaborators:
the provider's code-for-token exchange and the token-pair persistence. -/
structure CbEnv where
  exchange : Except String TokenPair
  saveErr : Option String

/-- Modelled from the spec: the persistence layer behind
`AuthStateExists` is outside the provided sources; the spec's contract
`ConsumeAuthState(state) -> (email, error-if-invalid-or-expired)` demands
atomic consume-and-invalidate (delete-returning) semantics.  The store is
the list of `(email, state)` pairs written by `SaveAuthState`; consuming a
state returns its email and deletes every entry holding that state. -/
def consumeAuthState (store : List (String × String)) (state : String) :
    Option String × List (String × String) :=
  match store.find? (fun p => p.2 = state) with
  | some p => (some p.1, store.filter fun q => q.2 ≠ state)
  | none => (none, store)

/-- `GithubCallbackHandler`: requires `code` and `state` query parameters
(Go's `Query().Get` yields `""` when absent), validates and consumes the
state, exchanges the code, and persists the token pair.  Returns the HTTP
status written, the state store after the run, and the actions performed. -/
def GithubCallbackHandler (env : CbEnv) (store : List (String × String))
    (code state : String) :
    Nat × List (String × String) × List CbEvent :=
  if code = "" then (400, store, [])
  else if state = "" then (400, store, [])
  else
    match consumeAuthState store state with
    | (none, store') => (400, store', [.stateLookup state])
    | (some email, store') =>
      match env.exchange with
      | .error _ => (500, store', [.stateLookup state, .exchange code])
      | .ok tp =>
        match env.saveErr with
        | some _ =>
          (500, store',
            [.stateLookup state, .exchange code,
              .saveToken email tp.AccessToken])
        | none =>
          (200, store',
            [.stateLookup state, .exchange code,
              .saveToken email tp.AccessToken])

/-- `UserInfo`: the identity resolved from the provider. -/
structure UserInfo where
  ID : String
  Email : String
  DisplayName : String
  deriving DecidableEq, Repr

/-- Errors of the local-user lookup: `notFound` models `ErrUserNotFound`
(matched via `errors.Is`), `other` every other lookup error. -/
inductive LookupErr where
  | notFound
  | other (msg : String)
  deriving DecidableEq, Repr

/-- Observable actions of one `HandleLoginSuccess` run. -/
inductive AEvent where
  | getIdpUser (intent token : String)
  | getUserByEmail (email : String)
  | createUser (u : UserInfo)
  | login (id intent token : String)
  deriving DecidableEq, Repr

/-- Result oracles for the auth service behind `HandleLoginSuccess`.
`getUserByEmail` returns a `UserInfo` value together with an optional
error, exactly as the Go call `user, err = GetUserByEmail(...)` does. -/
structure AuthEnv where
  getIdpUser : Except String UserInfo
  getUserByEmail : String → UserInfo × Option LookupErr
  createUser : UserInfo → Except String UserInfo

/-- `HandleLoginSuccess`: resolve the external user, look the local user up
by the resolved email, create one on `ErrUserNotFound`, then establish the
session via `Login(user.ID, intent, token)`.  Note that the Go code
reassigns `user` with `GetUserByEmail`'s return value, so a subsequent
`CreateUser(ctx, user)` receives that returned value, not the identity
resolved from the provider.  Returns the error status written (`some 400`)
or `none` on success, plus the actions performed. -/
def HandleLoginSuccess (env : AuthEnv) (intent token : String) :
    Option Nat × List AEvent :=
  match env.getIdpUser with
  | .error _ => (some 400, [.getIdpUser intent token])
  | .ok u0 =>
    match env.getUserByEmail u0.Email with
    | (_, some (.other _)) =>
      (some 400, [.getIdpUser intent token, .getUserByEmail u0.Email])
    | (u1, some .notFound) =>
      match env.createUser u1 with
      | .error _ =>
        (some 400,
          [.getIdpUser intent token, .getUserByEmail u0.Email,
            .createUser u1])
      | .ok u2 =>
        (none,
          [.getIdpUser intent token, .getUserByEmail u0.Email,
            .createUser u1, .login u2.ID intent token])
    | (u1, none) =>
      (none,
        [.getIdpUser intent token, .getUserByEmail u0.Email,
          .login u1.ID intent token])

theorem removedOf_append (a b : List Event) :
    removedOf (a ++ b) = removedOf a ++ removedOf b := by
  induction a with
  | nil => rfl
  | cons e tr ih => cases e <;> simp [removedOf, ih]

theorem clonedOf_append (a b : List Event) :
    clonedOf (a ++ b) = clonedOf a ++ clonedOf b := by
  induction a with
  | nil => rfl
  | cons e tr ih => cases e <;> simp [clonedOf, ih]

theorem closedOf_append (a b : List Event) :
    closedOf (a ++ b) = closedOf a ++ closedOf b := by
  induction a with
  | nil => rfl
  | cons e tr ih => cases e <;> simp [closedOf, ih]

theorem openedOf_append (a b : List Event) :
    openedOf (a ++ b) = openedOf a ++ openedOf b := by
  induction a with
  | nil => rfl
  | cons e tr ih => cases e <;> simp [openedOf, ih]

theorem savesOf_append (a b : List Event) :
    savesOf (a ++ b) = savesOf a ++ savesOf b := by
  induction a with
  | nil => rfl
  | cons e tr ih => cases e <;> simp [savesOf, ih]

/-- C7: for action `"created"` `ReposToProcess` returns exactly the
installation's repository list, and for `"added"` exactly
`RepositoriesAdded`, unmodified in content and order. -/
theorem reposToProcess_created_added (g : GithubWebhookRequest) :
    (g.Action = "created" → g.ReposToProcess = g.Repositories) ∧
    (g.Action = "added" → g.ReposToProcess = g.RepositoriesAdded) := by
  constructor <;> intro h <;>
    simp [GithubWebhookRequest.ReposToProcess, h]

def reqCreatedW : GithubWebhookRequest :=
  { After := ""
    Installation := ⟨7, ⟨7, "User", "alice"⟩⟩
    Sender := ⟨"alice"⟩
    Action := "created"
    Repositories := [⟨1, "o/r", false, ""⟩, ⟨2, "o/r2", true, ""⟩]
    RepositoriesAdded := []
    RepositoriesRemoved := []
    Ref := ""
    Repository := ⟨0, "", "", false⟩ }

def reqAddedW : GithubWebhookRequest :=
  { reqCreatedW with
    Action := "added"
    Repositories := []
    RepositoriesAdded := [⟨3, "o/r3", false, ""⟩] }

/-- Witness for C7 at two concrete events. -/
theorem reposToProcess_created_added_witness :
    reqCreatedW.ReposToProcess = reqCreatedW.Repositories ∧
    reqAddedW.ReposToProcess = reqAddedW.RepositoriesAdded :=
  ⟨(reposToProcess_created_added reqCreatedW).1 rfl,
   (reposToProcess_created_added reqAddedW).2 rfl⟩

/-- C8: for empty action and a non-primary-branch ref `ReposToProcess` is
empty; for empty action and a primary-branch ref it is the single
repository synthesized from the embedded descriptor, preserving `ID`,
`FullName` and `Private`; for any action other than `"created"`, `"added"`
and `""` it is empty. -/
theorem reposToProcess_push_other (g : GithubWebhookRequest) :
    (g.Action = "" → g.Ref ≠ "refs/heads/master" →
      g.Ref ≠ "refs/heads/main" → g.ReposToProcess = []) ∧
    (g.Action = "" →
      (g.Ref = "refs/heads/main" ∨ g.Ref = "refs/heads/master") →
      g.ReposToProcess =
        [{ ID := g.Repository.ID
           FullName := g.Repository.FullName
           Private := g.Repository.Private
           Branch := "" }]) ∧
    (g.Action ≠ "created" → g.Action ≠ "added" → g.Action ≠ "" →
      g.ReposToProcess = []) := by
  refine ⟨fun h h1 h2 => ?_, fun h h1 => ?_, fun h1 h2 h3 => ?_⟩
  · simp [GithubWebhookRequest.ReposToProcess, h, h1, h2]
  · rcases h1 with h1 | h1 <;>
      simp [GithubWebhookRequest.ReposToProcess, h, h1]
  · simp [GithubWebhookRequest.ReposToProcess, h1, h2, h3]

def reqFeatureW : GithubWebhookRequest :=
  { reqCreatedW with
    Action := ""
    Repositories := []
    Ref := "refs/heads/feature-x" }

def reqPushW : GithubWebhookRequest :=
  { reqCreatedW with
    Action := ""
    Repositories := []
    Ref := "refs/heads/main"
    After := "abc123"
    Repository := ⟨2, "", "o/r2", true⟩ }

def reqRemovedW : GithubWebhookRequest :=
  { reqCreatedW with
    Action := "removed"
    Repositories := [] }

/-- Witness for C8 at three concrete events. -/
theorem reposToProcess_push_other_witness :
    reqFeatureW.ReposToProcess = [] ∧
    reqPushW.ReposToProcess = [⟨2, "o/r2", true, ""⟩] ∧
    reqRemovedW.ReposToProcess = [] :=
  ⟨(reposToProcess_push_other reqFeatureW).1 rfl (by decide) (by decide),
   (reposToProcess_push_other reqPushW).2.1 rfl (Or.inl rfl),
   (reposToProcess_push_other reqRemovedW).2.2 (by decide) (by decide)
     (by decide)⟩

/-- C6: a callback with `code` or `state` absent fails with status 400
before any state lookup or token exchange occurs (no actions performed),
and the state store is unchanged. -/
theorem callback_missing_params (env : CbEnv)
    (store : List (String × String)) (code state : String)
    (h : code = "" ∨ state = "") :
    GithubCallbackHandler env store code state = (400, store, []) := by
  rcases h with h | h <;> simp [GithubCallbackHandler, h]

def cbEnvW : CbEnv := ⟨.ok ⟨"at", "rt", 0⟩, none⟩

/-- Witness for C6: a concrete callback with the code parameter absent. -/
theorem callback_missing_params_witness :
    GithubCallbackHandler cbEnvW [("e@x", "s1")] "" "s1" =
      (400, [("e@x", "s1")], []) :=
  callback_missing_params cbEnvW [("e@x", "s1")] "" "s1" (Or.inl rfl)

def authEnvBug : AuthEnv :=
  { getIdpUser := .ok ⟨"idp-1", "alice@example.com", "Alice"⟩
    getUserByEmail := fun _ => (⟨"", "", ""⟩, some .notFound)
    createUser := fun u => .ok ⟨"local-1", u.Email, u.DisplayName⟩ }

/-- C2: at a request whose provider resolution yields the user
`⟨"idp-1", "alice@example.com", "Alice"⟩` and whose local lookup reports
user-not-found (returning the zero `UserInfo` alongside the error, as the
collaborator convention has it), `HandleLoginSuccess` hands `CreateUser`
the zero value — not the externally resolved identity — because the Go
code reassigned `user` with the lookup's return value.  The session is
then bound to the id of the user created from that zero value. -/
theorem handleLoginSuccess_creates_zero_user :
    (HandleLoginSuccess authEnvBug "intent-1" "token-1").2 =
      [.getIdpUser "intent-1" "token-1",
       .getUserByEmail "alice@example.com",
       .createUser ⟨"", "", ""⟩,
       .login "local-1" "intent-1" "token-1"] ∧
    AEvent.createUser ⟨"idp-1", "alice@example.com", "Alice"⟩ ∉
      (HandleLoginSuccess authEnvBug "intent-1" "token-1").2 := by
  exact ⟨rfl, by decide⟩

theorem consumeAuthState_snd (store : List (String × String))
    (state : String)
    (h : ((consumeAuthState store state).1).isSome = true) :
    (consumeAuthState store state).2 =
      store.filter fun q => q.2 ≠ state := by
  unfold consumeAuthState at h ⊢
  cases hf : store.find? fun p => p.2 = state with
  | none => rw [hf] at h; simp at h
  | some p => rfl

theorem consumeAuthState_filter_none (store : List (String × String))
    (state : String) :
    (consumeAuthState (store.filter fun q => q.2 ≠ state) state).1 =
      none := by
  unfold consumeAuthState
  have hf : (store.filter fun q => q.2 ≠ state).find?
      (fun p => p.2 = state) = none := by
    rw [List.find?_eq_none]
    intro x hx
    simp only [List.mem_filter] at hx
    simpa using hx.2
  rw [hf]

theorem callback_store_after (env : CbEnv)
    (store : List (String × String)) (code state : String)
    (hc : code ≠ "") (hs : state ≠ "") :
    (GithubCallbackHandler env store code state).2.1 =
      (consumeAuthState store state).2 := by
  unfold GithubCallbackHandler
  rw [if_neg hc, if_neg hs]
  rcases hcs : consumeAuthState store state with ⟨em, store'⟩
  cases em with
  | none => rfl
  | some email =>
    cases env.exchange with
    | error e => rfl
    | ok tp =>
      cases env.saveErr with
      | none => rfl
      | some e => rfl

theorem callback_invalid_state (env : CbEnv)
    (store : List (String × String)) (code state : String)
    (hc : code ≠ "") (hs : state ≠ "")
    (hnone : (consumeAuthState store state).1 = none) :
    (GithubCallbackHandler env store code state).1 = 400 := by
  unfold GithubCallbackHandler
  rw [if_neg hc, if_neg hs]
  rcases hcs : consumeAuthState store state with ⟨em, store'⟩
  rw [hcs] at hnone
  simp only at hnone
  subst hnone
  rfl

/-- C3: a state value never validates twice.  If a callback with both
parameters present validates `state` successfully (the consume of `state`
on the current store succeeds), then after that callback the store no
longer validates `state`, and a second callback presenting the same
`state` — under any collaborator behaviour — fails with a bad-request
(400) outcome. -/
theorem state_single_use (env1 env2 : CbEnv)
    (store : List (String × String)) (code1 code2 state : String)
    (h1 : code1 ≠ "") (h2 : state ≠ "") (h3 : code2 ≠ "")
    (h4 : ((consumeAuthState store state).1).isSome = true) :
    (consumeAuthState
      (GithubCallbackHandler env1 store code1 state).2.1 state).1 = none ∧
    (GithubCallbackHandler env2
      (GithubCallbackHandler env1 store code1 state).2.1 code2 state).1 =
      400 := by
  have hst : (GithubCallbackHandler env1 store code1 state).2.1 =
      store.filter fun q => q.2 ≠ state := by
    rw [callback_store_after env1 store code1 state h1 h2,
      consumeAuthState_snd store state h4]
  constructor
  · rw [hst]; exact consumeAuthState_filter_none store state
  · refine callback_invalid_state env2 _ code2 state h3 h2 ?_
    rw [hst]; exact consumeAuthState_filter_none store state

/-- Witness for C3: one concrete store holding the state `"s1"`; the first
callback validates it, the second fails with 400. -/
theorem state_single_use_witness :
    (consumeAuthState
      (GithubCallbackHandler cbEnvW [("e@x", "s1")] "c1" "s1").2.1
      "s1").1 = none ∧
    (GithubCallbackHandler cbEnvW
      (GithubCallbackHandler cbEnvW [("e@x", "s1")] "c1" "s1").2.1
      "c2" "s1").1 = 400 :=
  state_single_use cbEnvW cbEnvW [("e@x", "s1")] "c1" "c2" "s1"
    (by decide) (by decide) (by decide) (by decide)

theorem runIterCore_facts (env : Env) (req : GithubWebhookRequest)
    (i : Nat) (repo : InstalledRepository) (pre : List Event)
    (token : String) (hrm : removedOf pre = []) (hcls : closedOf pre = [])
    (hcl : clonedOf pre = []) (hop : openedOf pre = [])
    (hsv : savesOf pre = []) (hlk : pre.any isLink = false) :
    removedOf (runIterCore env req i repo pre token).1 = [] ∧
    closedOf (runIterCore env req i repo pre token).1 = [] ∧
    clonedOf (runIterCore env req i repo pre token).2.1 = [] ∧
    openedOf (runIterCore env req i repo pre token).2.1 = [] ∧
    savesOf (runIterCore env req i repo pre token).2.1 = [] ∧
    removedOf (runIterCore env req i repo pre token).2.1 =
      (clonedOf (runIterCore env req i repo pre token).1).reverse ∧
    closedOf (runIterCore env req i repo pre token).2.1 =
      (openedOf (runIterCore env req i repo pre token).1).reverse ∧
    (runIterCore env req i repo pre token).1.any isLink = false ∧
    (runIterCore env req i repo pre token).2.1.any isLink = false := by
  unfold runIterCore
  cases env.clone i with
  | error e =>
    simp [removedOf_append, closedOf_append, clonedOf_append,
      openedOf_append, savesOf_append, List.any_append, hrm, hcls, hcl,
      hop, hsv, hlk, removedOf, closedOf, clonedOf, openedOf, savesOf,
      isLink]
  | ok repoDir =>
    cases env.openEx i with
    | error e =>
      simp [removedOf_append, closedOf_append, clonedOf_append,
        openedOf_append, savesOf_append, List.any_append, hrm, hcls, hcl,
        hop, hsv, hlk, removedOf, closedOf, clonedOf, openedOf, savesOf,
        isLink]
    | ok exId =>
      cases env.extract i with
      | error e =>
        simp [removedOf_append, closedOf_append, clonedOf_append,
          openedOf_append, savesOf_append, List.any_append, hrm, hcls,
          hcl, hop, hsv, hlk, removedOf, closedOf, clonedOf, openedOf,
          savesOf, isLink]
      | ok appSpace =>
        cases env.build i with
        | error e =>
          simp [removedOf_append, closedOf_append, clonedOf_append,
            openedOf_append, savesOf_append, List.any_append, hrm, hcls,
            hcl, hop, hsv, hlk, removedOf, closedOf, clonedOf, openedOf,
            savesOf, isLink]
        | ok image =>
          cases env.save i with
          | error e =>
            simp [removedOf_append, closedOf_append, clonedOf_append,
              openedOf_append, savesOf_append, List.any_append, hrm,
              hcls, hcl, hop, hsv, hlk, removedOf, closedOf, clonedOf,
              openedOf, savesOf, isLink]
          | ok appDef =>
            cases env.kubeApply i with
            | some e =>
              simp [removedOf_append, closedOf_append, clonedOf_append,
                openedOf_append, savesOf_append, List.any_append, hrm,
                hcls, hcl, hop, hsv, hlk, removedOf, closedOf, clonedOf,
                openedOf, savesOf, isLink]
            | none =>
              simp [removedOf_append, closedOf_append, clonedOf_append,
                openedOf_append, savesOf_append, List.any_append, hrm,
                hcls, hcl, hop, hsv, hlk, removedOf, closedOf, clonedOf,
                openedOf, savesOf, isLink]

theorem runIter_facts (env : Env) (req : GithubWebhookRequest) (i : Nat)
    (repo : InstalledRepository) :
    removedOf (runIter env req i repo).1 = [] ∧
    closedOf (runIter env req i repo).1 = [] ∧
    clonedOf (runIter env req i repo).2.1 = [] ∧
    openedOf (runIter env req i repo).2.1 = [] ∧
    savesOf (runIter env req i repo).2.1 = [] ∧
    removedOf (runIter env req i repo).2.1 =
      (clonedOf (runIter env req i repo).1).reverse ∧
    closedOf (runIter env req i repo).2.1 =
      (openedOf (runIter env req i repo).1).reverse ∧
    (runIter env req i repo).1.any isLink = false ∧
    (runIter env req i repo).2.1.any isLink = false := by
  unfold runIter
  cases hp : repo.Private with
  | false =>
    simp only [Bool.false_eq_true, if_false]
    exact runIterCore_facts env req i repo [] "" rfl rfl rfl rfl rfl rfl
  | true =>
    simp only [if_true]
    cases env.issueToken i with
    | error e =>
      simp [removedOf, closedOf, clonedOf, openedOf, savesOf, isLink]
    | ok token =>
      exact runIterCore_facts env req i repo
        [.issueToken req.Installation.ID] token rfl rfl rfl rfl rfl rfl

theorem runLoop_res (env : Env) (req : GithubWebhookRequest)
    (rs : List InstalledRepository) :
    ∀ (i : Nat) (st : List Event), clonedOf st = [] → openedOf st = [] →
    removedOf (runLoop env req i rs st).1 =
      (clonedOf (runLoop env req i rs st).1).reverse ++ removedOf st ∧
    closedOf (runLoop env req i rs st).1 =
      (openedOf (runLoop env req i rs st).1).reverse ++ closedOf st := by
  induction rs with
  | nil =>
    intro i st h1 h2
    simp [runLoop, h1, h2]
  | cons r rest ih =>
    intro i st h1 h2
    have hf := runIter_facts env req i r
    rcases hI : runIter env req i r with ⟨tr, df, e?⟩
    rw [hI] at hf
    obtain ⟨f1, f2, f3, f4, f5, f6, f7, f8, f9⟩ := hf
    cases e? with
    | some e =>
      simp [runLoop, hI, removedOf_append, clonedOf_append,
        closedOf_append, openedOf_append, f1, f2, f3, f4, f6, f7, h1, h2]
    | none =>
      have ih' := ih (i + 1) (df ++ st)
        (by simp [clonedOf_append, f3, h1])
        (by simp [openedOf_append, f4, h2])
      rcases hL : runLoop env req (i + 1) rest (df ++ st) with ⟨tr2, res⟩
      rw [hL] at ih'
      simp only [removedOf_append, clonedOf_append, closedOf_append,
        openedOf_append, f6, f7, h1, h2] at ih'
      simp [runLoop, hI, hL, removedOf_append, clonedOf_append,
        closedOf_append, openedOf_append, f1, f2, ih'.1, ih'.2,
        List.reverse_append]

theorem runLoop_nolink (env : Env) (req : GithubWebhookRequest)
    (rs : List InstalledRepository) :
    ∀ (i : Nat) (st : List Event), st.any isLink = false →
    (runLoop env req i rs st).1.any isLink = false := by
  induction rs with
  | nil =>
    intro i st h
    simpa [runLoop] using h
  | cons r rest ih =>
    intro i st h
    have hf := runIter_facts env req i r
    rcases hI : runIter env req i r with ⟨tr, df, e?⟩
    rw [hI] at hf
    obtain ⟨-, -, -, -, -, -, -, f8, f9⟩ := hf
    cases e? with
    | some e =>
      simp [runLoop, hI, List.any_append, f8, f9, h]
    | none =>
      have ih' := ih (i + 1) (df ++ st) (by simp [List.any_append, f9, h])
      rcases hL : runLoop env req (i + 1) rest (df ++ st) with ⟨tr2, res⟩
      rw [hL] at ih'
      simp [runLoop, hI, hL, List.any_append, f8, ih']

/-- C10: the installation-link write occurs if and only if the event's
action equals `"created"`; for every other action value no link event ever
appears in the run's trace. -/
theorem githubWebhook_link_iff_created (env : Env)
    (req : GithubWebhookRequest) :
    (GithubWebhook env req).1.any isLink = true ↔
      req.Action = "created" := by
  constructor
  · intro h
    by_contra hne
    rw [GithubWebhook, if_neg hne] at h
    rw [runLoop_nolink env req req.ReposToProcess 0 [] rfl] at h
    exact Bool.false_ne_true h
  · intro h
    rw [GithubWebhook, if_pos h]
    cases env.linkErr with
    | some e => simp [isLink]
    | none =>
      rcases runLoop env req 0 req.ReposToProcess [] with ⟨tr, res⟩
      simp [isLink]

/-- C4 (amended): over a whole `GithubWebhook` run, the released working
directories are exactly the successfully cloned ones — each once, in
last-in-first-out order — and the closed extractor sessions are exactly
the successfully opened ones, each once, regardless of which step failed;
the releases happen when the handler returns, not at the end of each
repository's own iteration. -/
theorem githubWebhook_releases_once (env : Env)
    (req : GithubWebhookRequest) :
    removedOf (GithubWebhook env req).1 =
      (clonedOf (GithubWebhook env req).1).reverse ∧
    closedOf (GithubWebhook env req).1 =
      (openedOf (GithubWebhook env req).1).reverse := by
  have key := runLoop_res env req req.ReposToProcess 0 [] rfl rfl
  rcases hL : runLoop env req 0 req.ReposToProcess [] with ⟨tr, res⟩
  rw [hL] at key
  simp only [removedOf, clonedOf, closedOf, openedOf, List.append_nil]
    at key
  unfold GithubWebhook
  by_cases h : req.Action = "created"
  · rw [if_pos h]
    cases env.linkErr with
    | some e => simp [removedOf, clonedOf, closedOf, openedOf]
    | none => simp [hL, removedOf, clonedOf, closedOf, openedOf, key.1,
        key.2]
  · rw [if_neg h, hL]
    exact key

theorem runIterCore_saves (env : Env) (req : GithubWebhookRequest)
    (i : Nat) (repo : InstalledRepository) (pre : List Event)
    (token : String) (hsv : savesOf pre = []) :
    ∀ d, d ∈ savesOf (runIterCore env req i repo pre token).1 →
      d.User = req.Sender.Login ∧ d.Sha = req.After ∧ d.ID = "" ∧
      d.AppID = "" ∧ d.CreatedAt = 0 ∧
      env.extract i = .ok d.App ∧
      ∃ im, env.build i = .ok im ∧ d.Tag = im.Tag := by
  unfold runIterCore
  cases hc : env.clone i with
  | error e =>
    intro d hd
    simp [savesOf_append, hsv, savesOf] at hd
  | ok repoDir =>
    cases ho : env.openEx i with
    | error e =>
      intro d hd
      simp [savesOf_append, hsv, savesOf] at hd
    | ok exId =>
      cases he : env.extract i with
      | error e =>
        intro d hd
        simp [savesOf_append, hsv, savesOf] at hd
      | ok appSpace =>
        cases hb : env.build i with
        | error e =>
          intro d hd
          simp [savesOf_append, hsv, savesOf] at hd
        | ok image =>
          cases hs : env.save i with
          | error e =>
            intro d hd
            simp [savesOf_append, hsv, savesOf] at hd
            subst hd
            exact ⟨rfl, rfl, rfl, rfl, rfl, rfl, image, rfl, rfl⟩
          | ok appDef =>
            cases hk : env.kubeApply i with
            | some e =>
              intro d hd
              simp [savesOf_append, hsv, savesOf] at hd
              subst hd
              exact ⟨rfl, rfl, rfl, rfl, rfl, rfl, image, rfl, rfl⟩
            | none =>
              intro d hd
              simp [savesOf_append, hsv, savesOf] at hd
              subst hd
              exact ⟨rfl, rfl, rfl, rfl, rfl, rfl, image, rfl, rfl⟩

theorem runIter_saves (env : Env) (req : GithubWebhookRequest) (i : Nat)
    (repo : InstalledRepository) :
    ∀ d, d ∈ savesOf (runIter env req i repo).1 →
      d.User = req.Sender.Login ∧ d.Sha = req.After ∧ d.ID = "" ∧
      d.AppID = "" ∧ d.CreatedAt = 0 ∧
      env.extract i = .ok d.App ∧
      ∃ im, env.build i = .ok im ∧ d.Tag = im.Tag := by
  unfold runIter
  cases hp : repo.Private with
  | false =>
    simp only [Bool.false_eq_true, if_false]
    exact runIterCore_saves env req i repo [] "" rfl
  | true =>
    simp only [if_true]
    cases ht : env.issueToken i with
    | error e =>
      intro d hd
      simp [savesOf] at hd
    | ok token =>
      exact runIterCore_saves env req i repo
        [.issueToken req.Installation.ID] token rfl

theorem runLoop_saves (env : Env) (req : GithubWebhookRequest)
    (rs : List InstalledRepository) :
    ∀ (i : Nat) (st : List Event), savesOf st = [] →
    ∀ d, d ∈ savesOf (runLoop env req i rs st).1 →
      d.User = req.Sender.Login ∧ d.Sha = req.After ∧ d.ID = "" ∧
      d.AppID = "" ∧ d.CreatedAt = 0 ∧
      ∃ j, env.extract j = .ok d.App ∧
        ∃ im, env.build j = .ok im ∧ d.Tag = im.Tag := by
  induction rs with
  | nil =>
    intro i st hst d hd
    rw [runLoop, hst] at hd
    exact absurd hd (List.not_mem_nil d)
  | cons r rest ih =>
    intro i st hst d hd
    have hf := runIter_facts env req i r
    have hsave := runIter_saves env req i r
    rcases hI : runIter env req i r with ⟨tr, df, e?⟩
    rw [hI] at hf hsave
    obtain ⟨-, -, -, -, f5, -, -, -, -⟩ := hf
    cases e? with
    | some e =>
      rw [runLoop, hI] at hd
      simp only [savesOf_append, f5, hst, List.append_nil] at hd
      obtain ⟨p1, p2, p3, p4, p5, p6, im, p7, p8⟩ := hsave d hd
      exact ⟨p1, p2, p3, p4, p5, i, p6, im, p7, p8⟩
    | none =>
      rcases hL : runLoop env req (i + 1) rest (df ++ st) with ⟨tr2, res⟩
      rw [runLoop, hI] at hd
      simp only [hL, savesOf_append, List.mem_append] at hd
      rcases hd with hd | hd
      · obtain ⟨p1, p2, p3, p4, p5, p6, im, p7, p8⟩ := hsave d hd
        exact ⟨p1, p2, p3, p4, p5, i, p6, im, p7, p8⟩
      · have ih' := ih (i + 1) (df ++ st)
          (by simp [savesOf_append, f5, hst]) d
        rw [hL] at ih'
        exact ih' hd

/-- C9: every `AppDefinition` handed to the persistence layer during a
`GithubWebhook` run carries the triggering user equal to the event's
sender login, the commit SHA equal to the event's `After` field, zero
values for the persistence-assigned identifiers, the application spec
returned by the extractor of that iteration, and the tag of the image
returned by the builder of that iteration. -/
theorem githubWebhook_saved_appdef (env : Env)
    (req : GithubWebhookRequest) :
    ∀ d, d ∈ savesOf (GithubWebhook env req).1 →
      d.User = req.Sender.Login ∧ d.Sha = req.After ∧ d.ID = "" ∧
      d.AppID = "" ∧ d.CreatedAt = 0 ∧
      ∃ j, env.extract j = .ok d.App ∧
        ∃ im, env.build j = .ok im ∧ d.Tag = im.Tag := by
  intro d hd
  unfold GithubWebhook at hd
  by_cases h : req.Action = "created"
  · rw [if_pos h] at hd
    cases hle : env.linkErr with
    | some e =>
      rw [hle] at hd
      simp [savesOf] at hd
    | none =>
      rw [hle] at hd
      rcases hL : runLoop env req 0 req.ReposToProcess [] with ⟨tr, res⟩
      simp only [hL, savesOf] at hd
      have hs := runLoop_saves env req req.ReposToProcess 0 [] rfl d
      rw [hL] at hs
      exact hs hd
  · rw [if_neg h] at hd
    exact runLoop_saves env req req.ReposToProcess 0 [] rfl d hd

/-- `okAlong env req i rs` says every iteration of the run over `rs`,
starting at iteration index `i`, succeeds. -/
def okAlong (env : Env) (req : GithubWebhookRequest) :
    Nat → List InstalledRepository → Prop
  | _, [] => True
  | i, p :: ps => (runIter env req i p).2.2 = none ∧ okAlong env req (i + 1) ps

theorem runLoop_fail_trunc (env : Env) (req : GithubWebhookRequest)
    (pre : List InstalledRepository) :
    ∀ (i : Nat) (st : List Event) (r : InstalledRepository)
      (rest : List InstalledRepository) (e : VelError),
    okAlong env req i pre →
    (runIter env req (i + pre.length) r).2.2 = some e →
    runLoop env req i (pre ++ r :: rest) st =
      ((runLoop env req i (pre ++ [r]) st).1, some e) := by
  induction pre with
  | nil =>
    intro i st r rest e _ he
    simp only [List.length_nil, Nat.add_zero] at he
    rcases hI : runIter env req i r with ⟨tr, df, e?⟩
    rw [hI] at he
    simp only at he
    subst he
    simp [runLoop, hI]
  | cons p ps ih =>
    intro i st r rest e hok he
    obtain ⟨h0, hok'⟩ := hok
    rcases hI : runIter env req i p with ⟨tr, df, e?⟩
    rw [hI] at h0
    simp only at h0
    subst h0
    have he' : (runIter env req (i + 1 + ps.length) r).2.2 = some e := by
      have harith : i + 1 + ps.length = i + (p :: ps).length := by
        simp only [List.length_cons]
        omega
      rw [harith]
      exact he
    have ih' := ih (i + 1) (df ++ st) r rest e hok' he'
    simp [runLoop, hI, ih']

/-- C1 (amended): a pipeline-step failure on one repository aborts the
entire webhook handling, not only that repository's iteration: for any
webhook (any action; for `"created"` events the pipeline only runs once
the link write succeeded), when the resolved repositories split as
`pre ++ r :: rest` with every iteration over `pre` succeeding and `r`'s
iteration failing with `e`, the handler's result is `e` and its whole
trace equals the trace of the run truncated at `r` — the successful
iterations, the failing iteration, and the flushed releases of the
resources acquired so far; nothing is executed for any repository in
`rest`. -/
theorem githubWebhook_failure_aborts_batch (env : Env)
    (req : GithubWebhookRequest) (pre : List InstalledRepository)
    (r : InstalledRepository) (rest : List InstalledRepository)
    (e : VelError)
    (hrep : req.ReposToProcess = pre ++ r :: rest)
    (hlink : req.Action = "created" → env.linkErr = none)
    (hok : okAlong env req 0 pre)
    (he : (runIter env req pre.length r).2.2 = some e) :
    (GithubWebhook env req).2 = some e ∧
    (GithubWebhook env req).1 =
      (if req.Action = "created" then
        [Event.linkGithub req.Installation.ID req.Sender.Login
          req.Repositories]
      else []) ++ (runLoop env req 0 (pre ++ [r]) []).1 := by
  have key := runLoop_fail_trunc env req pre 0 [] r rest e hok
    (by rw [Nat.zero_add]; exact he)
  by_cases h : req.Action = "created"
  · have hl := hlink h
    unfold GithubWebhook
    rw [if_pos h, hl, hrep, key]
    simp [h]
  · unfold GithubWebhook
    rw [if_neg h, hrep, key]
    simp [h]

/-- The all-successful collaborator environment used by the concrete runs:
iteration `i` clones into directory `"d<i>"` and opens extractor session
`i`. -/
def envAllOk : Env :=
  { linkErr := none
    issueToken := fun _ => .ok "tok"
    clone := fun i => .ok (if i = 0 then "d0" else "d1")
    openEx := fun i => .ok i
    extract := fun _ => .ok ⟨⟨"svc", "Dockerfile"⟩⟩
    build := fun _ => .ok ⟨"reg", "img", "latest"⟩
    save := fun _ => .ok ⟨"app-1", "a", ⟨⟨"svc", "Dockerfile"⟩⟩,
      "latest", "", "", 0⟩
    kubeApply := fun _ => none }

/-- Like `envAllOk`, but the clone of the first repository iteration
fails. -/
def envCloneFail : Env :=
  { envAllOk with
    clone := fun i => if i = 0 then .error "boom" else .ok "d1" }

/-- A repository-added webhook resolving to two public repositories. -/
def reqTwoAdded : GithubWebhookRequest :=
  { After := ""
    Installation := ⟨7, ⟨7, "User", "alice"⟩⟩
    Sender := ⟨"alice"⟩
    Action := "added"
    Repositories := []
    RepositoriesAdded := [⟨1, "o/r", false, ""⟩, ⟨2, "o/r2", false, ""⟩]
    RepositoriesRemoved := []
    Ref := ""
    Repository := ⟨0, "", "", false⟩ }

/-- Counterexample to C1 as stated: in a two-repository webhook whose
first clone fails, the failure is reported as the handler's error, but the
pipeline is not executed for the second repository — its clone call never
appears in the trace, although the claim requires the pipeline to still
run for every subsequent repository. -/
theorem githubWebhook_abort_cex :
    Event.clone "https://github.com/o/r2.git" 7 2 "" ∉
      (GithubWebhook envCloneFail reqTwoAdded).1 ∧
    (GithubWebhook envCloneFail reqTwoAdded).2 =
      some { Code := "UNKNOWN", Message := "boom" } := by
  decide

/-- Like `envAllOk`, but the clone of the second repository iteration
fails. -/
def envSecondFail : Env :=
  { envAllOk with
    clone := fun i => if i = 0 then .ok "d0" else .error "boom2" }

/-- An installation-created webhook resolving to three public
repositories. -/
def reqThreeCreated : GithubWebhookRequest :=
  { After := ""
    Installation := ⟨7, ⟨7, "User", "alice"⟩⟩
    Sender := ⟨"alice"⟩
    Action := "created"
    Repositories := [⟨1, "o/r", false, ""⟩, ⟨2, "o/r2", false, ""⟩,
      ⟨3, "o/r3", false, ""⟩]
    RepositoriesAdded := []
    RepositoriesRemoved := []
    Ref := ""
    Repository := ⟨0, "", "", false⟩ }

/-- Witness for the amended C1 at a concrete installation-created webhook
with three repositories whose second clone fails: the first iteration
succeeds, the failure on the second repository aborts the handling, and
the third repository is never processed. -/
theorem githubWebhook_failure_aborts_batch_witness :
    (GithubWebhook envSecondFail reqThreeCreated).2 =
      some (unknownErr "boom2") ∧
    (GithubWebhook envSecondFail reqThreeCreated).1 =
      (if reqThreeCreated.Action = "created" then
        [Event.linkGithub reqThreeCreated.Installation.ID
          reqThreeCreated.Sender.Login reqThreeCreated.Repositories]
      else []) ++
        (runLoop envSecondFail reqThreeCreated 0
          [⟨1, "o/r", false, ""⟩, ⟨2, "o/r2", false, ""⟩] []).1 :=
  githubWebhook_failure_aborts_batch envSecondFail reqThreeCreated
    [⟨1, "o/r", false, ""⟩] ⟨2, "o/r2", false, ""⟩ [⟨3, "o/r3", false, ""⟩]
    (unknownErr "boom2") (by decide) (fun _ => rfl)
    ⟨by decide, trivial⟩ (by decide)

/-- Counterexample to C4 as stated: in a fully successful two-repository
webhook, the first repository's working directory `"d0"` is still
unreleased when the second repository's clone happens — its removal
appears in the trace only after the second repository's events, because
the Go `defer`s registered inside the loop run at function exit, not when
the repository's own iteration ends. -/
theorem githubWebhook_late_cleanup_cex :
    Event.removeDir "d0" ∈ (GithubWebhook envAllOk reqTwoAdded).1 ∧
    ¬ ((GithubWebhook envAllOk reqTwoAdded).1.indexOf
        (Event.removeDir "d0") <
      (GithubWebhook envAllOk reqTwoAdded).1.indexOf
        (Event.clone "https://github.com/o/r2.git" 7 2 "")) := by
  decide

/-- C5: for an action-`"created"` webhook the installation link
`(installationID, senderLogin, repositories)` is persisted first — it is
the very first event of the run — and if that write fails the whole
handling aborts with the error and the trace holds nothing but the link
attempt: no pipeline step runs for any repository. -/
theorem githubWebhook_link_first (env : Env) (req : GithubWebhookRequest)
    (h : req.Action = "created") :
    (∀ e, env.linkErr = some e →
      GithubWebhook env req =
        ([.linkGithub req.Installation.ID req.Sender.Login
            req.Repositories], some (unknownErr e))) ∧
    (env.linkErr = none →
      ∃ tr res, GithubWebhook env req =
        (.linkGithub req.Installation.ID req.Sender.Login req.Repositories
          :: tr, res)) := by
  constructor
  · intro e he
    unfold GithubWebhook
    rw [if_pos h, he]
  · intro he
    unfold GithubWebhook
    rw [if_pos h, he]
    rcases runLoop env req 0 req.ReposToProcess [] with ⟨tr, res⟩
    exact ⟨tr, res, rfl⟩

/-- Like `envAllOk`, but the installation-link write fails. -/
def envLinkFail : Env := { envAllOk with linkErr := some "link down" }

/-- Witness for C5: a concrete installation-created webhook whose link
write fails aborts with only the link attempt in its trace. -/
theorem githubWebhook_link_first_witness :
    GithubWebhook envLinkFail reqCreatedW =
      ([.linkGithub reqCreatedW.Installation.ID reqCreatedW.Sender.Login
          reqCreatedW.Repositories], some (unknownErr "link down")) :=
  (githubWebhook_link_first envLinkFail reqCreatedW rfl).1 "link down" rfl

/-- The `AppDefinition` persisted in the concrete push-webhook run of the
C9 witness. -/
def savedW : AppDefinition :=
  ⟨"", "", ⟨⟨"svc", "Dockerfile"⟩⟩, "latest", "abc123", "alice", 0⟩

/-- Witness for C9: in the concrete push webhook with `after = "abc123"`
on a private repository, the persisted `AppDefinition` carries
`Sha = "abc123"`, the sender login, the extracted spec and the built
image's tag. -/
theorem githubWebhook_saved_appdef_witness :
    savedW.User = reqPushW.Sender.Login ∧ savedW.Sha = reqPushW.After ∧
    savedW.ID = "" ∧ savedW.AppID = "" ∧ savedW.CreatedAt = 0 ∧
    ∃ j, envAllOk.extract j = .ok savedW.App ∧
      ∃ im, envAllOk.build j = .ok im ∧ savedW.Tag = im.Tag :=
  githubWebhook_saved_appdef envAllOk reqPushW savedW (by decide)

end Treenq
